/-
  Verification of the Tegu reservation control plane against its
  natural-language specification.

  Shallow embedding of the Go sources:
    * gizmos/pledge_window (src/unnamed/part_003)
    * managers/res_mgr Inventory (src/unnamed/part_000)
    * managers/agent dispatcher (src/unnamed/part_001)
    * managers/fq_mgr_steer.go
    * managers/net_req.go
    * gizmos/path.go

  Go machine integers (int64) are embedded as Lean Int; unix-second
  arithmetic in the sources (now+15, now+16, now-120) stays far from
  the int64 bounds, so no modular reduction is modelled.  Calls to
  time.Now().Unix() are embedded as an explicit `now : Int` parameter.
  Pointer-typed values that may be nil are embedded as Option.
-/
import Mathlib

namespace Tegu

/-! ### pledge_window (src/unnamed/part_003) -/

/-- Window of time for a pledge; `commence` and `expiry` are unix seconds
(Go struct `pledge_window`, part_003). -/
structure pledge_window where
  commence : Int
  expiry : Int
deriving DecidableEq, Repr

/-- Go `mk_pledge_window` (part_003): a commence time earlier than `now` is
adjusted to `now`; if the expiry is before the adjusted commence time a nil
pointer (here: `none`) and an error are returned. -/
def mk_pledge_window (commence expiry now : Int) : Option pledge_window :=
  let commence := if commence < now then now else commence
  if expiry < commence then
    none
  else
    some { commence := commence, expiry := expiry }

/-- Go `pledge_window.is_expired` (part_003): now >= expiry. -/
def pledge_window.is_expired (p : pledge_window) (now : Int) : Bool :=
  decide (now ≥ p.expiry)

/-- Go `pledge_window.is_pending` (part_003): now < commence. -/
def pledge_window.is_pending (p : pledge_window) (now : Int) : Bool :=
  decide (now < p.commence)

/-- Go `pledge_window.is_active` (part_003): commence < now && expiry > now. -/
def pledge_window.is_active (p : pledge_window) (now : Int) : Bool :=
  decide (p.commence < now) && decide (p.expiry > now)

/-- Go `pledge_window.is_active_soon` (part_003):
(commence >= now) && commence <= (now + window). -/
def pledge_window.is_active_soon (p : pledge_window) (window now : Int) : Bool :=
  decide (p.commence ≥ now) && decide (p.commence ≤ now + window)

/-- Go `pledge_window.is_extinct` (part_003): expiry <= now - window. -/
def pledge_window.is_extinct (p : pledge_window) (window now : Int) : Bool :=
  decide (p.expiry ≤ now - window)

/-- Go `pledge_window.set_expiry_to` (part_003). -/
def pledge_window.set_expiry_to (p : pledge_window) (new_time : Int) : pledge_window :=
  { p with expiry := new_time }

/-! ### Switch / Link / Host / Path (src/gizmos/path.go) -/

/-- Switch/port/queue-number tuple (Go `Spq`, gizmos). -/
structure Spq where
  switch : String
  port : Int
  queuenum : Int
deriving DecidableEq, Repr

/-- A network link as the path code consumes it.  `Get_forward_info` /
`Get_backward_info` return the (switch, port, queue-num) data for a queue
name at a timestamp; their internals (queue tables, obligations) are not
needed by the claims, so they are embedded as function fields. -/
structure Link where
  forward_info : String → Int → Spq
  backward_info : String → Int → Spq

/-- A switch; its internals are not inspected by any claim. -/
structure Switch where
  id : String
deriving DecidableEq, Repr

/-- A host as the path code consumes it: `Get_addresses` returns the
IPv4 (and IPv6) address; only the IPv4 half is used by push. -/
structure Host where
  ip4 : String
deriving DecidableEq, Repr

/-- Go `Path` (gizmos/path.go).  The Go struct keeps pre-allocated slices
with fill indices `lidx`/`sidx`; they are embedded as the lists of the
elements actually added (`links` holds entries `0..lidx-1`, etc.).
Go's two-element `endpts` array becomes the pair `endpt0`/`endpt1`. -/
structure Path where
  links : List Link
  switches : List (Option Switch)
  h1 : Host
  h2 : Host
  endpt0 : Option Link
  endpt1 : Option Link
  extip : Option String
  is_reverse : Bool

/-- Go `Mk_path` (path.go): empty path between two hosts. -/
def Mk_path (h1 h2 : Host) : Path :=
  { links := [], switches := [], h1 := h1, h2 := h2,
    endpt0 := none, endpt1 := none, extip := none, is_reverse := false }

/-- Go `Path.Add_link` (path.go): nil links are ignored, others appended. -/
def Path.Add_link (p : Path) (l : Option Link) : Path :=
  match l with
  | none => p
  | some l => { p with links := p.links ++ [l] }

/-- Go `Path.Add_switch` (path.go): appended unconditionally (a nil switch
pointer is stored as-is). -/
def Path.Add_switch (p : Path) (s : Option Switch) : Path :=
  { p with switches := p.switches ++ [s] }

/-- Go `Path.Invert` (path.go): builds a fresh path with the links and then
the switches added in reverse index order, and the reverse flag negated.
The Go original mutates only the fresh path, so the receiver is untouched;
the embedding is a pure function of `p`. -/
def Path.Invert (p : Path) : Path :=
  let ip := Mk_path p.h1 p.h2
  let ip := p.links.reverse.foldl (fun a l => a.Add_link (some l)) ip
  let ip := p.switches.reverse.foldl (fun a s => a.Add_switch s) ip
  { ip with is_reverse := !p.is_reverse }

/-- Go `Path.Get_ilink_spq` (path.go): forward info of the first link
(last when the path is reversed) for the given queue name and timestamp;
nil when the index is out of range. -/
def Path.Get_ilink_spq (p : Path) (qid : String) (tstamp : Int) : Option Spq :=
  let idx := if p.is_reverse then p.links.length - 1 else 0
  (p.links.get? idx).map (fun l => l.forward_info qid tstamp)

/-- Go `Path.Get_elink_spq` (path.go): backward info of the last link
(first when the path is reversed). -/
def Path.Get_elink_spq (p : Path) (qid : String) (tstamp : Int) : Option Spq :=
  let idx := if p.is_reverse then 0 else p.links.length - 1
  (p.links.get? idx).map (fun l => l.backward_info qid tstamp)

/-- Go `Path.Get_forward_im_spq` (path.go): forward "priority-out" info of
every link except the first (in path order). -/
def Path.Get_forward_im_spq (p : Path) (tstamp : Int) : List Spq :=
  let ls := if p.is_reverse then (p.links.take (p.links.length - 1)).reverse else p.links.drop 1
  ls.map (fun l => l.forward_info "priority-out" tstamp)

/-- Go `Path.Get_backward_im_spq` (path.go): backward "priority-in" info of
every link except the last (in path order). -/
def Path.Get_backward_im_spq (p : Path) (tstamp : Int) : List Spq :=
  let ls := if p.is_reverse then (p.links.drop 1).reverse else p.links.take (p.links.length - 1)
  ls.map (fun l => l.backward_info "priority-in" tstamp)

/-- Go `Path.Get_endpoint_spq` (path.go): forward info of the two endpoint
virtual links with queue names `E0`/`E1` + qid (swapped when reversed). -/
def Path.Get_endpoint_spq (p : Path) (qid : String) (tstamp : Int) :
    Option Spq × Option Spq :=
  let ep0 := if p.is_reverse then p.endpt1 else p.endpt0
  let ep1 := if p.is_reverse then p.endpt0 else p.endpt1
  let pfx0 := if p.is_reverse then "E1" else "E0"
  let pfx1 := if p.is_reverse then "E0" else "E1"
  (ep0.map (fun l => l.forward_info (pfx0 ++ qid) tstamp),
   ep1.map (fun l => l.forward_info (pfx1 ++ qid) tstamp))

/-- Go `Path.Get_extip` (path.go). -/
def Path.Get_extip (p : Path) : Option String :=
  p.extip

/-! ### Pledge (gizmos/pledge; the file itself is not under src/) -/

/-- Modelled from the spec: the file gizmos/pledge.go is not under src/, only
its callers (res_mgr in part_000) and its window helper (part_003) are.
Spec §3: common attributes are a unique id, an owner cookie, a window
`{commence, expiry}`, a `pushed` flag, a `paused` flag; a bandwidth pledge
adds hosts `h1`,`h2`, transport ports `p1`,`p2`, a DSCP code and a path-list
chosen at reserve time. -/
structure Pledge where
  id : String
  cookie : String
  window : pledge_window
  pushed : Bool
  paused : Bool
  h1 : String
  h2 : String
  p1 : Int
  p2 : Int
  dscp : Int
  paths : List Path

/-- Modelled from the spec: `Is_valid_cookie` holds when the supplied cookie
matches the pledge's owner cookie (spec §4.1 `Get`). -/
def Pledge.Is_valid_cookie (p : Pledge) (cookie : String) : Bool :=
  decide (cookie = p.cookie)

/-- Modelled from the spec: `Set_expiry` rewrites the window's expiry time
(delegating to `pledge_window.set_expiry_to`, which is in src). -/
def Pledge.Set_expiry (p : Pledge) (t : Int) : Pledge :=
  { p with window := p.window.set_expiry_to t }

/-- Modelled from the spec: `Reset_pushed` clears the pushed flag. -/
def Pledge.Reset_pushed (p : Pledge) : Pledge :=
  { p with pushed := false }

/-- Modelled from the spec: `Is_pushed` reads the pushed flag. -/
def Pledge.Is_pushed (p : Pledge) : Bool :=
  p.pushed

/-- Modelled from the spec: `Is_paused` reads the paused flag. -/
def Pledge.Is_paused (p : Pledge) : Bool :=
  p.paused

/-- Modelled from the spec: the pledge state tests delegate to the
pledge_window functions of part_003. -/
def Pledge.Is_active (p : Pledge) (now : Int) : Bool :=
  p.window.is_active now

/-- Modelled from the spec: delegation to `pledge_window.is_active_soon`. -/
def Pledge.Is_active_soon (p : Pledge) (window now : Int) : Bool :=
  p.window.is_active_soon window now

/-- Modelled from the spec: delegation to `pledge_window.is_extinct`. -/
def Pledge.Is_extinct (p : Pledge) (window now : Int) : Bool :=
  p.window.is_extinct window now

/-! ### Inventory (src/unnamed/part_000, res_mgr) -/

/-- Errors returned synchronously by the inventory operations; each
constructor stands for the `fmt.Errorf` at the corresponding source line. -/
inductive Rerror where
  | alreadyExists (id : String)
  | notFound (name : String)
  | unauthorized (name : String)
deriving DecidableEq, Repr

/-- The reservation-manager inventory: Go `map[string]*gizmos.Pledge`
(`inv.cache`), embedded as a total lookup function. -/
structure Inventory where
  cache : String → Option Pledge

/-- Go `Inventory.Add_res` (part_000:747): error if the id is already in the
cache, otherwise store the pledge under its id. -/
def Inventory.Add_res (inv : Inventory) (p : Pledge) : Inventory × Option Rerror :=
  match inv.cache p.id with
  | some _ => (inv, some (Rerror.alreadyExists p.id))
  | none => ({ cache := fun k => if k = p.id then some p else inv.cache k }, none)

/-- Go `Inventory.Get_res` (part_000:767): nil+error when the name is not in
the cache; nil+error when the cookie neither validates against the pledge
nor equals the super cookie; otherwise the pledge and nil error.  The Go
function does not modify the inventory, so the embedding returns none. -/
def Inventory.Get_res (inv : Inventory) (name cookie super_cookie : String) :
    Option Pledge × Option Rerror :=
  match inv.cache name with
  | none => (none, some (Rerror.notFound name))
  | some p =>
    if !(p.Is_valid_cookie cookie) && cookie ≠ super_cookie then
      (none, some (Rerror.unauthorized name))
    else
      (some p, none)

/-- Observable actions of `Del_res`, in program order: the REQ_DEL message
to the network manager (whose reply is awaited before the function
continues), the expiry rewrite, and the pushed-flag clear. -/
inductive DelEv where
  | netRelease (id : String)
  | expiryReset (id : String) (t : Int)
  | pushedClear (id : String)
deriving DecidableEq, Repr

/-- Go `Inventory.Del_res` (part_000:800): authorizes via `Get_res`; when a
pledge is returned it sends REQ_DEL to the network manager and waits for the
reply, then sets the expiry to now+15 and resets the pushed flag.  The
network manager's reply state is modelled as success (nil).  The second
component is the trace of observable actions in execution order. -/
def Inventory.Del_res (inv : Inventory) (name cookie super_cookie : String)
    (now : Int) : Inventory × List DelEv × Option Rerror :=
  match inv.Get_res name cookie super_cookie with
  | (some p, _) =>
    let p' := (p.Set_expiry (now + 15)).Reset_pushed
    ({ cache := fun k => if k = name then some p' else inv.cache k },
     [DelEv.netRelease p.id, DelEv.expiryReset p.id (now + 15), DelEv.pushedClear p.id],
     none)
  | (none, st) => (inv, [], st)

/-- Go purge test inside `Inventory.write_chkpt` (part_000:631): an expired
pledge is removed from the cache when `p.Is_extinct(120) && p.Is_pushed()`. -/
def chkpt_purges (p : Pledge) (now : Int) : Bool :=
  p.Is_extinct 120 now && p.Is_pushed

/-! ### push_reservations (src/unnamed/part_000:443) -/

/-- One REQ_IE_RESERVE work item: the snapshot `fq_sdata` of the Go
`fq_data` array (indices FQ_ID, FQ_DSCP, FQ_SPQ, FQ_DIR_IN, FQ_IP1, FQ_IP2,
FQ_TPSPORT, FQ_TPDPORT, FQ_EXTIP, FQ_EXTTY, FQ_EXPIRY) at the moment
`Send_req(fq_ch, …, REQ_IE_RESERVE, fq_sdata, …)` is called. -/
structure Fq_data where
  id : String
  dscp : Int
  spq : Option Spq
  dir_in : Bool
  ip1 : String
  ip2 : String
  tpsport : Int
  tpdport : Int
  extip : String
  extty : String
  expiry : Int
deriving DecidableEq, Repr

/-- The per-path body of the Go `for i := range plist` loop inside
`Inventory.push_reservations` (part_000:487-578): the REQ_IE_RESERVE
requests sent for one path, in send order — forward endpoint (when
present), ingress link, forward intermediates, then backward endpoint
(when present), egress link (queue name `"R"+rname`), backward
intermediates.  `rname` is the cache key; with the id-keyed cache it
equals the pledge id.  `now` stands for `time.Now().Unix()`; the probe
timestamp for every queue lookup is `now + 16`. -/
def push_path_reqs (p : Pledge) (now : Int) (pa : Path) : List Fq_data :=
  let rname := p.id
  let fexpiry := if p.Is_paused then now + 15 else p.window.expiry
  let ts := now + 16
  let extip := (pa.Get_extip).getD ""
  let ip1 := pa.h1.ip4
  let ip2 := pa.h2.ip4
  let es := pa.Get_endpoint_spq rname ts
  let espq1 := es.fst
  let espq0 := es.snd
  let fwd_base : Fq_data :=
    { id := rname, dscp := p.dscp, spq := none, dir_in := false,
      ip1 := ip1, ip2 := ip2, tpsport := p.p1, tpdport := p.p2,
      extip := extip, extty := "-D", expiry := fexpiry }
  let fwd :=
    (match espq1 with
     | some s => [{ fwd_base with spq := some s, dir_in := true }]
     | none => [])
    ++ [{ fwd_base with spq := pa.Get_ilink_spq rname ts, dir_in := false }]
    ++ (pa.Get_forward_im_spq ts).map
        (fun s => { fwd_base with spq := some s, dir_in := false })
  let rev_rname := "R" ++ rname
  let bwd_base : Fq_data :=
    { fwd_base with
      tpsport := p.p2
      tpdport := p.p1
      extty := "-S"
      ip1 := ip2
      ip2 := ip1 }
  let bwd :=
    (match espq0 with
     | some s => [{ bwd_base with spq := some s, dir_in := true }]
     | none => [])
    ++ [{ bwd_base with spq := pa.Get_elink_spq rev_rname ts, dir_in := false }]
    ++ (pa.Get_backward_im_spq ts).map
        (fun s => { bwd_base with spq := some s, dir_in := false })
  fwd ++ bwd

/-- Go per-pledge body of `Inventory.push_reservations` (part_000:443):
a pledge that is already pushed, or neither active now nor active within
the next 15 seconds, sends nothing; otherwise both hosts are resolved via
`name2ip` (embedded as `resolve`; a nil result on either host sends
nothing) and the per-path requests of `push_path_reqs` are sent for every
path in the pledge's path list, in order. -/
def push_pledge (resolve : String → Option String) (p : Pledge) (now : Int) :
    List Fq_data :=
  if p.Is_pushed then [] else
  if !(p.Is_active now || p.Is_active_soon 15 now) then [] else
  match resolve p.h1, resolve p.h2 with
  | some _, some _ => p.paths.flatMap (push_path_reqs p now)
  | _, _ => []

/-- All (switch, port, queue-num) values obtainable from a path for
reservation name `rname` at timestamp `ts`: the two endpoint lookups, the
ingress and egress link lookups (the latter under the `"R"+rname` queue
name) and the intermediate lookups in both directions.  Used to state that
pushed requests carry only tuples looked up from the path at `ts`. -/
def path_spq_lookups (pa : Path) (rname : String) (ts : Int) : List (Option Spq) :=
  let es := pa.Get_endpoint_spq rname ts
  [es.fst, es.snd, pa.Get_ilink_spq rname ts, pa.Get_elink_spq ("R" ++ rname) ts]
    ++ (pa.Get_forward_im_spq ts).map some
    ++ (pa.Get_backward_im_spq ts).map some

/-! ### Agent dispatcher (src/unnamed/part_001) -/

/-- Go `agent_data` (part_001): the ordered list of connected agent ids
(`agent_list`, built from the `agents` map and of the same length) and the
round-robin index `aidx`. -/
structure agent_data where
  agents : List String
  aidx : Nat
deriving DecidableEq, Repr

/-- Go `agent_data.send2one` (part_001:137): nothing is written when no
agent is connected; otherwise the message goes to `agent_list[aidx]` and
the index advances, wrapping to 1 (skipping the long-running agent at
index 0) when more than one agent is connected, else to 0.  Returns the id
written to and the updated state. -/
def agent_data.send2one (ad : agent_data) : Option String × agent_data :=
  let l := ad.agents.length
  if l ≤ 0 then (none, ad)
  else
    let target := ad.agents.get? ad.aidx
    let na := ad.aidx + 1
    let na := if na ≥ l then (if l > 1 then 1 else 0) else na
    (target, { ad with aidx := na })

/-- Go `agent_data.send2lra` / `sendbytes2lra` (part_001:179,193): writes to
`agent_list[0]`, the designated long-running agent; nothing when no agent
is connected. -/
def agent_data.send2lra (ad : agent_data) : Option String :=
  if ad.agents.length ≤ 0 then none else ad.agents.get? 0

/-- The send-request message kinds handled by `Agent_mgr` (part_001:436). -/
inductive areq where
  | sendall (msg : String)
  | sendlong (msg : String)
  | sendshort (msg : String)
deriving DecidableEq, Repr

/-- Go `Agent_mgr` request dispatch (part_001:436-450): REQ_SENDALL fans
out to every agent; REQ_SENDLONG and REQ_SENDSHORT are both handed to
`send2one`.  Returns the list of agent ids written to and the new state. -/
def Agent_mgr_dispatch (ad : agent_data) : areq → List String × agent_data
  | .sendall _ => (ad.agents, ad)
  | .sendlong _ =>
    match ad.send2one with
    | (some t, ad') => ([t], ad')
    | (none, ad') => ([], ad')
  | .sendshort _ =>
    match ad.send2one with
    | (some t, ad') => ([t], ad')
    | (none, ad') => ([], ad')

/-! ### Steering flow-mods (src/managers/fq_mgr_steer.go) -/

/-- Match half of Go `Fq_req` (`Fq_parms`): fields consumed by
`send_stfmod_agent`. -/
structure Fq_match where
  meta : Option String
  swport : Int
  smac : Option String
  dmac : Option String
  ip1 : Option String
  ip2 : Option String
  tpsport : Int
  tpdport : Int

/-- Action half of Go `Fq_req`. -/
structure Fq_action where
  dmac : Option String
  smac : Option String
  meta : Option String
  resub : Option String

/-- The steering flow-mod request (Go `Fq_req` as used by
`send_stfmod_agent`). -/
structure Fq_req where
  pri : Int
  table : Int
  swid : Option String
  nxt_mac : Option String
  lbmac : Option String
  protocol : Option String
  expiry : Int
  fmatch : Fq_match
  faction : Fq_action

/-- One chunk appended to the Go `match_opts` string, tagged by the option
flag it carries (one constructor per `match_opts += …` site). -/
inductive MatchOpt where
  | meta (v : String)
  | iport (v : String)
  | smac (v : String)
  | dmac (v : String)
  | tps (proto : String) (port : Int)
  | tpd (proto : String) (port : Int)
deriving DecidableEq, Repr

/-- The exact text the corresponding Go `match_opts += …` appends. -/
def MatchOpt.render : MatchOpt → String
  | .meta v => " -m " ++ v
  | .iport v => " -i " ++ v
  | .smac v => " -s " ++ v
  | .dmac v => " -d " ++ v
  | .tps proto port => " -p " ++ proto ++ ":" ++ toString port
  | .tpd proto port => " -P " ++ proto ++ ":" ++ toString port

/-- True for the `-i` (inbound port) option chunks. -/
def MatchOpt.isIport : MatchOpt → Bool
  | .iport _ => true
  | _ => false

/-- The parts of the flow-mod command emitted by `send_stfmod_agent`:
effective priority, table, the match and action option chunks in append
order, the expiry, and the target hosts (every host of `hlist` when no
switch id was supplied, else the named switch). -/
structure Stf_cmd where
  pri : Int
  table : Int
  match_opts : List MatchOpt
  action_opts : List String
  expiry : Int
  hosts : List String
deriving DecidableEq, Repr

/-- The metadata block of the Go match-options construction
(fq_mgr_steer.go:79). -/
def st_meta_opts (data : Fq_req) : List MatchOpt :=
  match data.fmatch.meta with
  | some m => if m ≠ "" then [MatchOpt.meta m] else []
  | none => []

/-- The inbound-port block of the Go match-options construction
(fq_mgr_steer.go:87-97): a non-negative `swport` emits `-i <port>`; the
late-binding sentinel -128 emits `-i <lbmac>` when the MAC was supplied and
nothing (an error is logged) when it is nil. -/
def st_port_opts (data : Fq_req) : List MatchOpt :=
  if data.fmatch.swport ≥ 0 then [MatchOpt.iport (toString data.fmatch.swport)]
  else if data.fmatch.swport = -128 then
    match data.lbmac with
    | some m => [MatchOpt.iport m]
    | none => []
  else []

/-- The src/dst MAC resolution of fq_mgr_steer.go:99-122: an explicitly
given MAC wins; otherwise the IP (when given) is translated through
`ip2mac`, and a failed translation aborts the whole function (outer
`none`). -/
def st_resolve_mac (given ip : Option String) (ip2mac : String → Option String) :
    Option (Option String) :=
  match given, ip with
  | some m, _ => some (some m)
  | none, some i =>
    match ip2mac i with
    | some m => some (some m)
    | none => none
  | none, none => some none

/-- The transport-port blocks of fq_mgr_steer.go:127-133. -/
def st_tp_opts (data : Fq_req) : List MatchOpt :=
  (match data.protocol with
   | some proto =>
     if data.fmatch.tpsport ≥ 0 then [MatchOpt.tps proto data.fmatch.tpsport] else []
   | none => [])
  ++ (match data.protocol with
      | some proto =>
        if data.fmatch.tpdport ≥ 0 then [MatchOpt.tpd proto data.fmatch.tpdport] else []
      | none => [])

/-- The full Go `match_opts` chunk list in append order: metadata, inbound
port, src MAC, dst MAC, transport ports (fq_mgr_steer.go:77-133). -/
def st_match_opts (data : Fq_req) (smac dmac : Option String) : List MatchOpt :=
  st_meta_opts data
  ++ st_port_opts data
  ++ (match smac with
      | some m => [MatchOpt.smac m]
      | none => [])
  ++ (match dmac with
      | some m => [MatchOpt.dmac m]
      | none => [])
  ++ st_tp_opts data

/-- The Go `action_opts` chunk list (fq_mgr_steer.go:135-164). -/
def st_action_opts (data : Fq_req) : List String :=
  (match data.faction.dmac with
   | some m => [" -d " ++ m]
   | none => [])
  ++ (match data.faction.smac with
      | some m => [" -s " ++ m]
      | none => [])
  ++ (match data.nxt_mac with
      | some m => [" -d " ++ m]
      | none => [])
  ++ (match data.faction.meta with
      | some m => if m ≠ "" then [" -m " ++ m] else []
      | none => [])
  ++ (match data.faction.resub with
      | some r => (r.splitOn " ").map (fun t => " -R ," ++ t)
      | none => [])
  ++ ["-N"]

/-- Go `send_stfmod_agent` (fq_mgr_steer.go:54): a non-positive priority
becomes 100; the match options are built in source order; when a src/dst IP
fails to translate to a MAC the function returns without emitting anything
(`none`); the command goes to every host of `hlist` when no switch id was
supplied (`on_all`), else to the named switch. -/
def send_stfmod_agent (data : Fq_req) (ip2mac : String → Option String)
    (hlist : List String) : Option Stf_cmd :=
  let pri := if data.pri ≤ 0 then 100 else data.pri
  match st_resolve_mac data.fmatch.smac data.fmatch.ip1 ip2mac with
  | none => none
  | some smac =>
    match st_resolve_mac data.fmatch.dmac data.fmatch.ip2 ip2mac with
    | none => none
    | some dmac =>
      some { pri := pri
             table := data.table
             match_opts := st_match_opts data smac dmac
             action_opts := st_action_opts data
             expiry := data.expiry
             hosts := match data.swid with
               | none => hlist
               | some s => [s] }

/-! ### Net_vm (src/managers/net_req.go) -/

/-- Go `Net_vm` (net_req.go), without the obsolete gwmap. -/
structure Net_vm where
  name : Option String
  id : Option String
  ip4 : Option String
  ip6 : Option String
  phost : Option String
  mac : Option String
  gw : Option String
  fip : Option String
deriving DecidableEq, Repr

/-- The named return parameters of Go `Net_vm.Get_values`, in declaration
order: `( name, id, ip4, ip6, gw, phost, mac, fip )` (net_req.go:81). -/
structure Get_values_ret where
  name : Option String
  id : Option String
  ip4 : Option String
  ip6 : Option String
  gw : Option String
  phost : Option String
  mac : Option String
  fip : Option String
deriving DecidableEq, Repr

/-- Go `Net_vm.Get_values` (net_req.go:81): on a nil receiver everything is
nil; otherwise the positional `return vm.name, vm.id, vm.ip4, vm.ip6,
vm.phost, vm.gw, vm.mac, vm.fip` filled into the named return parameters in
that order. -/
def Net_vm.Get_values (vm : Option Net_vm) : Get_values_ret :=
  match vm with
  | none => ⟨none, none, none, none, none, none, none, none⟩
  | some vm => ⟨vm.name, vm.id, vm.ip4, vm.ip6, vm.phost, vm.gw, vm.mac, vm.fip⟩

/-! ## Theorems -/

/-- C4 (counterexample): at `now = commence` the spec's classification
calls the pledge active (`commence ≤ now < expiry`), but
`pledge_window.is_active` — which tests `commence < now` strictly — does
not: the window {5, 10} at now = 5 satisfies 5 ≤ 5 ∧ 5 < 10 yet is not
active (and is not pending either). -/
theorem c4_active_boundary_counterexample :
    (5 : Int) ≤ 5 ∧ (5 : Int) < 10
    ∧ pledge_window.is_active ⟨5, 10⟩ 5 = false
    ∧ pledge_window.is_pending ⟨5, 10⟩ 5 = false := by
  decide

/-- C4 (amended): the state predicates classify a window {commence, expiry}
at time now as pending exactly when now < commence, active exactly when
commence < now < expiry (strict on the left, unlike the spec's
commence ≤ now), expired exactly when expiry ≤ now, and extinct(120)
exactly when expiry ≤ now − 120; the checkpoint writer purges exactly the
pledges that are extinct(120) and were pushed. -/
theorem c4_state_classification (pw : pledge_window) (p : Pledge) (now : Int) :
    (pw.is_pending now = true ↔ now < pw.commence)
    ∧ (pw.is_active now = true ↔ (pw.commence < now ∧ now < pw.expiry))
    ∧ (pw.is_expired now = true ↔ pw.expiry ≤ now)
    ∧ (pw.is_extinct 120 now = true ↔ pw.expiry ≤ now - 120)
    ∧ (chkpt_purges p now = true ↔ (p.window.expiry ≤ now - 120 ∧ p.pushed = true)) := by
  refine ⟨?_, ?_, ?_, ?_, ?_⟩
  · simp [pledge_window.is_pending]
  · simp [pledge_window.is_active]
  · simp [pledge_window.is_expired]
  · simp [pledge_window.is_extinct]
  · simp [chkpt_purges, Pledge.Is_extinct, Pledge.Is_pushed, pledge_window.is_extinct]

/-- C5 (counterexample): with now = 0 the request {commence 0, expiry 0}
has expiry ≤ commence after clamping, so the claim says it is rejected; the
code only rejects `expiry < commence` and accepts it, producing the window
{0, 0}. -/
theorem c5_equal_window_counterexample :
    mk_pledge_window 0 0 0 = some ⟨0, 0⟩ ∧ (0 : Int) ≤ 0 := by
  constructor
  · rfl
  · decide

/-- C5 (amended): window construction clamps a commence time earlier than
now up to now; after clamping, the request is rejected (no window produced)
exactly when expiry < commence — strictly, so a window with
expiry = commence is accepted — and every request with
expiry ≥ clamped commence yields the window {clamped commence, expiry}. -/
theorem c5_window_validation (c e now : Int) :
    (mk_pledge_window c e now = none ↔ e < (if c < now then now else c))
    ∧ (e ≥ (if c < now then now else c) →
        mk_pledge_window c e now = some ⟨if c < now then now else c, e⟩) := by
  unfold mk_pledge_window
  constructor
  · by_cases h : e < (if c < now then now else c) <;> simp [h]
  · intro hge
    have h : ¬ e < (if c < now then now else c) := by omega
    simp [h]

/-- C5 witness: commence −1 is clamped to now = 0 and the window
{0, 5} is produced. -/
theorem c5_window_validation_witness :
    mk_pledge_window (-1) 5 0 = some ⟨0, 5⟩ := by
  have h := (c5_window_validation (-1) 5 0).2 (by norm_num)
  simpa using h

/-- C9 (confirmed): `Net_vm.Get_values` returns the stored values in the
order (name, id, ip4, ip6, phost, gw, mac, fip), so the value landing in
the return position the Go signature names `gw` is the physical host and
the value landing in the position named `phost` is the gateway; all other
positions carry their same-named fields. -/
theorem c9_get_values_swapped (v : Net_vm) :
    (Net_vm.Get_values (some v)).gw = v.phost
    ∧ (Net_vm.Get_values (some v)).phost = v.gw
    ∧ (Net_vm.Get_values (some v)).name = v.name
    ∧ (Net_vm.Get_values (some v)).id = v.id
    ∧ (Net_vm.Get_values (some v)).ip4 = v.ip4
    ∧ (Net_vm.Get_values (some v)).ip6 = v.ip6
    ∧ (Net_vm.Get_values (some v)).mac = v.mac
    ∧ (Net_vm.Get_values (some v)).fip = v.fip :=
  ⟨rfl, rfl, rfl, rfl, rfl, rfl, rfl, rfl⟩

/-- Folding `Add_link` over a list of (non-nil) links appends them to the
accumulator's link list and changes nothing else. -/
theorem foldl_Add_link (ls : List Link) (pa : Path) :
    (ls.foldl (fun a l => a.Add_link (some l)) pa).links = pa.links ++ ls
    ∧ (ls.foldl (fun a l => a.Add_link (some l)) pa).switches = pa.switches
    ∧ (ls.foldl (fun a l => a.Add_link (some l)) pa).is_reverse = pa.is_reverse := by
  induction ls generalizing pa with
  | nil => simp
  | cons x xs ih =>
    have h := ih (pa.Add_link (some x))
    simpa [Path.Add_link] using h

/-- Folding `Add_switch` over a list of switch pointers appends them to the
accumulator's switch list and changes nothing else. -/
theorem foldl_Add_switch (ss : List (Option Switch)) (pa : Path) :
    (ss.foldl (fun a s => a.Add_switch s) pa).links = pa.links
    ∧ (ss.foldl (fun a s => a.Add_switch s) pa).switches = pa.switches ++ ss
    ∧ (ss.foldl (fun a s => a.Add_switch s) pa).is_reverse = pa.is_reverse := by
  induction ss generalizing pa with
  | nil => simp
  | cons x xs ih =>
    have h := ih (pa.Add_switch x)
    simpa [Path.Add_switch] using h

/-- C10 (confirmed): `Path.Invert` produces a path whose links and switches
are exactly those of the original in reversed order with the reverse flag
negated (the original is read-only in the Go source, so it is unmodified),
and inverting twice restores the original link order, switch order and
reverse flag. -/
theorem c10_invert_reverses (p : Path) :
    p.Invert.links = p.links.reverse
    ∧ p.Invert.switches = p.switches.reverse
    ∧ p.Invert.is_reverse = !p.is_reverse
    ∧ p.Invert.Invert.links = p.links
    ∧ p.Invert.Invert.switches = p.switches
    ∧ p.Invert.Invert.is_reverse = p.is_reverse := by
  have base : ∀ q : Path,
      q.Invert.links = q.links.reverse
      ∧ q.Invert.switches = q.switches.reverse
      ∧ q.Invert.is_reverse = !q.is_reverse := by
    intro q
    unfold Path.Invert
    have h1 := foldl_Add_link q.links.reverse (Mk_path q.h1 q.h2)
    have h2 := foldl_Add_switch q.switches.reverse
      (q.links.reverse.foldl (fun a l => a.Add_link (some l)) (Mk_path q.h1 q.h2))
    simp only [Mk_path] at h1 h2 ⊢
    refine ⟨?_, ?_, by trivial⟩
    · simp only [h2.1, h1.1, List.nil_append]
    · simp only [h2.2.1, h1.2.1, List.nil_append]
  obtain ⟨l1, s1, r1⟩ := base p
  obtain ⟨l2, s2, r2⟩ := base p.Invert
  refine ⟨l1, s1, r1, ?_, ?_, ?_⟩
  · rw [l2, l1, List.reverse_reverse]
  · rw [s2, s1, List.reverse_reverse]
  · rw [r2, r1, Bool.not_not]

/-- A concrete pledge used by the closed witnesses. -/
def samplePledge : Pledge :=
  { id := "r1", cookie := "alice", window := ⟨10, 20⟩, pushed := true,
    paused := false, h1 := "A", h2 := "B", p1 := 0, p2 := 0, dscp := 0,
    paths := [] }

/-- A concrete one-entry inventory used by the closed witnesses. -/
def sampleInv : Inventory :=
  ⟨fun k => if k = "r1" then some samplePledge else none⟩

/-- C2 (confirmed): for a name present in the inventory, `Get_res` returns
the pledge with a nil error exactly when the supplied cookie matches the
pledge's owner cookie or equals the super-cookie; otherwise it returns a
nil pledge and the not-authorised error.  (`Get_res` never writes the
cache — its embedding does not even produce an inventory — so the
inventory is unchanged in every case.) -/
theorem c2_get_res_cookie_authority (inv : Inventory) (name cookie sc : String)
    (p0 : Pledge) (hp : inv.cache name = some p0) :
    (inv.Get_res name cookie sc = (some p0, none)
      ↔ (cookie = p0.cookie ∨ cookie = sc))
    ∧ (¬(cookie = p0.cookie ∨ cookie = sc) →
        inv.Get_res name cookie sc = (none, some (Rerror.unauthorized name))) := by
  unfold Inventory.Get_res
  rw [hp]
  by_cases h1 : cookie = p0.cookie
  · simp [Pledge.Is_valid_cookie, h1]
  · by_cases h2 : cookie = sc <;>
      simp [Pledge.Is_valid_cookie, h1, h2]

/-- C2 witness: the owner cookie fetches the sample pledge; a wrong cookie
gets nil and the not-authorised error. -/
theorem c2_get_res_cookie_authority_witness :
    sampleInv.Get_res "r1" "alice" "sc" = (some samplePledge, none)
    ∧ sampleInv.Get_res "r1" "bob" "sc" = (none, some (Rerror.unauthorized "r1")) := by
  constructor
  · exact (c2_get_res_cookie_authority sampleInv "r1" "alice" "sc" samplePledge
      rfl).1.mpr (Or.inl rfl)
  · exact (c2_get_res_cookie_authority sampleInv "r1" "bob" "sc" samplePledge
      rfl).2 (by simp [samplePledge])

/-- C3 (confirmed): `Add_res` errors exactly when a pledge with the same id
is already cached; on the error the cache is untouched at every key; on
success the pledge is stored under its id and every other key is
untouched; and the invariant that each cached pledge sits under its own id
— which makes "at most one pledge per id" structural in the id-keyed map —
is preserved. -/
theorem c3_add_res_conflict (inv : Inventory) (p : Pledge) :
    ((inv.Add_res p).2 = some (Rerror.alreadyExists p.id)
      ↔ (inv.cache p.id).isSome = true)
    ∧ ((inv.cache p.id).isSome = true →
        ∀ k, (inv.Add_res p).1.cache k = inv.cache k)
    ∧ (inv.cache p.id = none →
        (inv.Add_res p).1.cache p.id = some p
        ∧ ∀ k, k ≠ p.id → (inv.Add_res p).1.cache k = inv.cache k)
    ∧ ((∀ k q, inv.cache k = some q → q.id = k) →
        ∀ k q, (inv.Add_res p).1.cache k = some q → q.id = k) := by
  cases hc : inv.cache p.id with
  | some q0 =>
    refine ⟨by simp [Inventory.Add_res, hc], ?_, ?_, ?_⟩
    · intro _ k
      simp [Inventory.Add_res, hc]
    · intro h
      simp [hc] at h
    · intro hinv k q
      simp only [Inventory.Add_res, hc]
      exact hinv k q
  | none =>
    refine ⟨by simp [Inventory.Add_res, hc], ?_, ?_, ?_⟩
    · intro h
      simp [hc] at h
    · intro _
      constructor
      · simp [Inventory.Add_res, hc]
      · intro k hk
        simp [Inventory.Add_res, hc, hk]
    · intro hinv k q
      simp only [Inventory.Add_res, hc]
      by_cases hk : k = p.id
      · simp [hk]
        intro hq
        simp [← hq]
      · simp [hk]
        exact hinv k q

/-- C3 witness: adding the sample pledge to an empty inventory succeeds and
stores it under its id; adding it again errors and leaves the entry as it
was. -/
theorem c3_add_res_conflict_witness :
    ((⟨fun _ => none⟩ : Inventory).Add_res samplePledge).1.cache "r1" = some samplePledge
    ∧ (sampleInv.Add_res samplePledge).2 = some (Rerror.alreadyExists "r1")
    ∧ ∀ k, (sampleInv.Add_res samplePledge).1.cache k = sampleInv.cache k := by
  refine ⟨?_, ?_, ?_⟩
  · exact ((c3_add_res_conflict ⟨fun _ => none⟩ samplePledge).2.2.1 rfl).1
  · exact (c3_add_res_conflict sampleInv samplePledge).1.mpr (by simp [sampleInv, samplePledge])
  · exact (c3_add_res_conflict sampleInv samplePledge).2.1 (by simp [sampleInv, samplePledge])

/-- C1 (confirmed): when `Del_res` finds the pledge and the cookie
authorizes, the trace of observable actions is exactly the awaited
network-manager release followed by the expiry rewrite to now+15 and the
pushed-flag clear — the release is the head of the trace, so the expiry
write never precedes it — and the cached pledge ends up with expiry now+15
and pushed cleared. -/
theorem c1_del_release_before_expiry_reset (inv : Inventory)
    (name cookie sc : String) (now : Int) (p : Pledge)
    (hp : inv.cache name = some p)
    (hauth : cookie = p.cookie ∨ cookie = sc) :
    (inv.Del_res name cookie sc now).2.1 =
      [DelEv.netRelease p.id, DelEv.expiryReset p.id (now + 15),
       DelEv.pushedClear p.id]
    ∧ ((inv.Del_res name cookie sc now).2.1).head? = some (DelEv.netRelease p.id)
    ∧ (inv.Del_res name cookie sc now).1.cache name =
        some ((p.Set_expiry (now + 15)).Reset_pushed) := by
  have hget : inv.Get_res name cookie sc = (some p, none) := by
    unfold Inventory.Get_res
    rw [hp]
    rcases hauth with h | h <;> simp [Pledge.Is_valid_cookie, h]
  unfold Inventory.Del_res
  rw [hget]
  exact ⟨rfl, rfl, by simp⟩

/-- C1 witness: deleting the sample pledge with its owner cookie produces
the release-then-reset trace and rewrites the cached pledge. -/
theorem c1_del_release_before_expiry_reset_witness :
    (sampleInv.Del_res "r1" "alice" "sc" 100).2.1 =
      [DelEv.netRelease "r1", DelEv.expiryReset "r1" 115, DelEv.pushedClear "r1"]
    ∧ (sampleInv.Del_res "r1" "alice" "sc" 100).1.cache "r1" =
        some ((samplePledge.Set_expiry 115).Reset_pushed) := by
  have h := c1_del_release_before_expiry_reset sampleInv "r1" "alice" "sc" 100
    samplePledge rfl (Or.inl rfl)
  exact ⟨by simpa [samplePledge] using h.1, by simpa using h.2.2⟩

/-- C7 (counterexample): with two agents connected and the round-robin
index at its initial value 0, the very next short send goes to the agent at
index 0, so short sends do select index 0 while more than one agent is
connected; and a SendLong request is dispatched through the same
round-robin `send2one` (here, from index 1, it is delivered to agent "b",
not to the index-0 agent "a"). -/
theorem c7_dispatch_counterexample :
    ((["a", "b"] : List String).length > 1)
    ∧ (agent_data.send2one ⟨["a", "b"], 0⟩).1 = some "a"
    ∧ (["a", "b"] : List String).get? 0 = some "a"
    ∧ (Agent_mgr_dispatch ⟨["a", "b"], 1⟩ (areq.sendlong "x")).1 = ["b"]
    ∧ (["a", "b"] : List String).get? 0 ≠ some "b" := by
  refine ⟨by decide, rfl, rfl, rfl, by decide⟩

/-- C7 (amended): short sends deliver to the agent at the current index and
advance it, wrapping to index 1 — skipping the long-running agent slot 0 —
whenever more than one agent is connected; hence from any state whose index
is already ≥ 1 a short send never selects index 0, and after any send with
more than one agent connected the index is again ≥ 1 (index 0 is reached
only as the initial value or when the list shrinks).  SendLong requests are
not pinned to index 0: `Agent_mgr` hands REQ_SENDLONG to the same
round-robin `send2one` as REQ_SENDSHORT, while the dedicated index-0 path
(`send2lra`) serves the internally generated priming requests. -/
theorem c7_round_robin_dispatch (ad : agent_data) (m : String)
    (h1 : 1 ≤ ad.aidx) (h2 : ad.aidx < ad.agents.length) :
    ad.send2one.1 = ad.agents.get? ad.aidx
    ∧ ad.aidx ≠ 0
    ∧ 1 ≤ ad.send2one.2.aidx
    ∧ Agent_mgr_dispatch ad (areq.sendlong m) = Agent_mgr_dispatch ad (areq.sendshort m)
    ∧ (ad.agents.length > 0 → ad.send2lra = ad.agents.get? 0) := by
    have hl : ¬ ad.agents.length ≤ 0 := by omega
    refine ⟨?_, by omega, ?_, rfl, ?_⟩
    · simp [agent_data.send2one, hl]
    · by_cases hw : ad.aidx + 1 ≥ ad.agents.length
      · have hgt : ad.agents.length > 1 := by omega
        simp [agent_data.send2one, hl, hw, hgt]
      · simp [agent_data.send2one, hl, hw]
    · intro hpos
      simp [agent_data.send2lra, hl]

/-- C7 witness: from the state (["a", "b"], index 1) a short send selects
index 1 ("b"), never index 0, and wraps the index back to 1. -/
theorem c7_round_robin_dispatch_witness :
    (agent_data.send2one ⟨["a", "b"], 1⟩).1 = (["a", "b"] : List String).get? 1
    ∧ (1 : Nat) ≠ 0
    ∧ 1 ≤ (agent_data.send2one ⟨["a", "b"], 1⟩).2.aidx
    ∧ Agent_mgr_dispatch ⟨["a", "b"], 1⟩ (areq.sendlong "x")
        = Agent_mgr_dispatch ⟨["a", "b"], 1⟩ (areq.sendshort "x") := by
  have h := c7_round_robin_dispatch ⟨["a", "b"], 1⟩ "x" (by decide) (by decide)
  exact ⟨h.1, h.2.1, h.2.2.1, h.2.2.2.1⟩

/-- The metadata block contributes no `-i` chunk. -/
theorem filter_isIport_meta (data : Fq_req) :
    (st_meta_opts data).filter MatchOpt.isIport = [] := by
  unfold st_meta_opts
  cases data.fmatch.meta with
  | none => rfl
  | some m => by_cases h : m ≠ "" <;> simp [h, MatchOpt.isIport]

/-- The transport-port blocks contribute no `-i` chunk. -/
theorem filter_isIport_tp (data : Fq_req) :
    (st_tp_opts data).filter MatchOpt.isIport = [] := by
  unfold st_tp_opts
  cases data.protocol with
  | none => rfl
  | some proto =>
    by_cases h1 : data.fmatch.tpsport ≥ 0 <;> by_cases h2 : data.fmatch.tpdport ≥ 0 <;>
      simp [h1, h2, MatchOpt.isIport]

/-- The only `-i` chunks of the match options come from the inbound-port
block. -/
theorem filter_isIport_match_opts (data : Fq_req) (smac dmac : Option String) :
    (st_match_opts data smac dmac).filter MatchOpt.isIport
      = (st_port_opts data).filter MatchOpt.isIport := by
  unfold st_match_opts
  simp only [List.filter_append, filter_isIport_meta, filter_isIport_tp]
  cases smac <;> cases dmac <;> simp [MatchOpt.isIport]

/-- C8 (confirmed): every emitted steering flow-mod uses priority 100 when
the supplied priority is not positive (and the supplied priority
otherwise); and when the inbound switch port is the late-binding sentinel
-128, the match carries exactly one `-i` chunk holding the supplied MAC —
in place of any port number — when the MAC is present, and no `-i` chunk
at all when it is absent. -/
theorem c8_steer_priority_and_late_binding (data : Fq_req)
    (ip2mac : String → Option String) (hlist : List String) (cmd : Stf_cmd)
    (hc : send_stfmod_agent data ip2mac hlist = some cmd) :
    (data.pri ≤ 0 → cmd.pri = 100)
    ∧ (0 < data.pri → cmd.pri = data.pri)
    ∧ (data.fmatch.swport = -128 →
        (∀ m, data.lbmac = some m →
            cmd.match_opts.filter MatchOpt.isIport = [MatchOpt.iport m])
        ∧ (data.lbmac = none →
            cmd.match_opts.filter MatchOpt.isIport = [])) := by
  unfold send_stfmod_agent at hc
  cases hs : st_resolve_mac data.fmatch.smac data.fmatch.ip1 ip2mac with
  | none =>
    rw [hs] at hc
    simp at hc
  | some smac =>
    cases hd : st_resolve_mac data.fmatch.dmac data.fmatch.ip2 ip2mac with
    | none =>
      rw [hs, hd] at hc
      simp at hc
    | some dmac =>
      rw [hs, hd] at hc
      simp only [Option.some.injEq] at hc
      subst hc
      refine ⟨?_, ?_, ?_⟩
      · intro hple
        simp [hple]
      · intro hpgt
        have : ¬ data.pri ≤ 0 := by omega
        simp [this]
      · intro hsw
        have hnn : ¬ data.fmatch.swport ≥ 0 := by omega
        constructor
        · intro m hm
          simp only [filter_isIport_match_opts]
          unfold st_port_opts
          simp [hnn, hsw, hm, MatchOpt.isIport]
        · intro hm
          simp only [filter_isIport_match_opts]
          unfold st_port_opts
          simp [hnn, hsw, hm, MatchOpt.isIport]

/-- A concrete steering request used by the C8 witness: non-positive
priority, late-binding inbound port -128 with a MAC supplied. -/
def sampleStfReq : Fq_req :=
  { pri := 0, table := 0, swid := none, nxt_mac := none,
    lbmac := some "aa:bb:cc:dd:ee:ff", protocol := none, expiry := 0,
    fmatch := { meta := none, swport := -128, smac := none, dmac := none,
                ip1 := none, ip2 := none, tpsport := -1, tpdport := -1 },
    faction := { dmac := none, smac := none, meta := none, resub := none } }

/-- The command `send_stfmod_agent` emits for `sampleStfReq`. -/
def sampleStfCmd : Stf_cmd :=
  { pri := 100, table := 0,
    match_opts := [MatchOpt.iport "aa:bb:cc:dd:ee:ff"],
    action_opts := ["-N"], expiry := 0, hosts := [] }

/-- C8 witness: the emitted command for `sampleStfReq` uses priority 100
and its only `-i` chunk is the supplied late-binding MAC. -/
theorem c8_steer_priority_and_late_binding_witness :
    sampleStfCmd.pri = 100
    ∧ sampleStfCmd.match_opts.filter MatchOpt.isIport
        = [MatchOpt.iport "aa:bb:cc:dd:ee:ff"] := by
  have h := c8_steer_priority_and_late_binding sampleStfReq (fun _ => none) []
    sampleStfCmd rfl
  exact ⟨h.1 (by decide), (h.2.2 rfl).1 "aa:bb:cc:dd:ee:ff" rfl⟩

/-- Every request emitted for one path carries the pledge-level expiry
(now+15 when paused) and a switch/port/queue tuple looked up from that
path at probe timestamp now+16. -/
theorem push_path_reqs_fields (p : Pledge) (now : Int) (pa : Path) (r : Fq_data)
    (hr : r ∈ push_path_reqs p now pa) :
    r.expiry = (if p.Is_paused then now + 15 else p.window.expiry)
    ∧ r.spq ∈ path_spq_lookups pa p.id (now + 16) := by
  unfold push_path_reqs at hr
  cases he1 : (pa.Get_endpoint_spq p.id (now + 16)).fst <;>
    cases he0 : (pa.Get_endpoint_spq p.id (now + 16)).snd <;>
    · simp only [he1, he0, List.mem_append, List.mem_cons, List.mem_map,
        List.not_mem_nil, or_false, false_or] at hr
      casesm* _ ∨ _, Exists _, _ ∧ _ <;> subst_vars <;>
        simp_all [path_spq_lookups]

/-- C6 (confirmed): every REQ_IE_RESERVE request emitted by the push loop
for an unpushed pledge that is active now or within 15 seconds carries
expiry equal to the pledge's expiry — except that a paused pledge's
requests carry now+15 — and a (switch, port, queue-num) tuple obtained
from one of the pledge's paths at the probe timestamp now+16. -/
theorem c6_push_expiry_and_probe (resolve : String → Option String)
    (p : Pledge) (now : Int) (r : Fq_data)
    (hr : r ∈ push_pledge resolve p now) :
    r.expiry = (if p.Is_paused then now + 15 else p.window.expiry)
    ∧ ∃ pa, pa ∈ p.paths ∧ r.spq ∈ path_spq_lookups pa p.id (now + 16) := by
  unfold push_pledge at hr
  split at hr
  · simp at hr
  split at hr
  · simp at hr
  cases hx : resolve p.h1 with
  | none =>
    rw [hx] at hr
    simp at hr
  | some a =>
    cases hy : resolve p.h2 with
    | none =>
      rw [hx, hy] at hr
      simp at hr
    | some b =>
      rw [hx, hy] at hr
      simp only [List.mem_flatMap] at hr
      obtain ⟨pa, hpa, hr⟩ := hr
      have h := push_path_reqs_fields p now pa r hr
      exact ⟨h.1, pa, hpa, h.2⟩

/-- A concrete link for the C6 witness: constant queue lookups. -/
def sampleLink : Link :=
  ⟨fun _ _ => ⟨"sw1", 1, 7⟩, fun _ _ => ⟨"sw1", 2, 8⟩⟩

/-- A concrete one-link path for the C6 witness. -/
def samplePath : Path :=
  { links := [sampleLink], switches := [], h1 := ⟨"10.0.0.1"⟩,
    h2 := ⟨"10.0.0.2"⟩, endpt0 := none, endpt1 := none, extip := none,
    is_reverse := false }

/-- A concrete unpushed, unpaused, active pledge over `samplePath`. -/
def samplePushPledge : Pledge :=
  { id := "r1", cookie := "alice", window := ⟨0, 100⟩, pushed := false,
    paused := false, h1 := "A", h2 := "B", p1 := 0, p2 := 0, dscp := 0,
    paths := [samplePath] }

/-- The first request `push_pledge` emits for `samplePushPledge` at
now = 50: the ingress-link flow-mod. -/
def sampleReq : Fq_data :=
  { id := "r1", dscp := 0, spq := some ⟨"sw1", 1, 7⟩, dir_in := false,
    ip1 := "10.0.0.1", ip2 := "10.0.0.2", tpsport := 0, tpdport := 0,
    extip := "", extty := "-D", expiry := 100 }

/-- C6 witness: the ingress request emitted for `samplePushPledge` at
now = 50 carries the pledge expiry 100 and a tuple looked up from the
path at timestamp 66. -/
theorem c6_push_expiry_and_probe_witness :
    sampleReq.expiry
      = (if samplePushPledge.Is_paused then 50 + 15 else samplePushPledge.window.expiry)
    ∧ ∃ pa, pa ∈ samplePushPledge.paths
        ∧ sampleReq.spq ∈ path_spq_lookups pa samplePushPledge.id (50 + 16) := by
  refine c6_push_expiry_and_probe (fun _ => some "ip") samplePushPledge 50 sampleReq ?_
  show sampleReq ∈ push_pledge (fun _ => some "ip") samplePushPledge 50
  rw [show push_pledge (fun _ => some "ip") samplePushPledge 50
    = [sampleReq,
       { sampleReq with
         spq := some ⟨"sw1", 2, 8⟩
         tpsport := 0
         tpdport := 0
         extty := "-S"
         ip1 := "10.0.0.2"
         ip2 := "10.0.0.1" }] from rfl]
  exact List.mem_cons_self _ _

end Tegu
